import Mathlib

/-!
# cat: argument classification, validation and line numbering

A shallow embedding of `src/cat/cat.go`.

Modelling conventions.

* A Go `string` is a Lean `String`.  The test `rune(arg[0]) == '-'` reads the
  first byte of the argument; `-` is ASCII, so on UTF-8 text the first byte is
  `0x2D` exactly when the first character is `-`.  Indexing an empty string
  panics, which the model renders as `none`.
* The operating system is a function from paths to `FileState`: what `os.Stat`,
  `os.Open` and the line scanner answer for that path.
* The line counter is Go's `int` (64 bits).  It is bounded by the number of
  lines scanned, and a regular file holds fewer than `2^63` bytes, so the
  counter never wraps; it is a `Nat` here.
* `strconv.Itoa` on a non-negative counter is `Nat.repr` (base 10, no padding).
* A run is described by what reached standard output, which paths were opened
  and closed, and how the process ended.
* Output goes through `bufio.NewWriter(os.Stdout)`, whose 4096-byte buffer is
  written through whenever it fills.  After `Flush` every byte is on standard
  output; when `log.Fatal` ends the process first, only the bytes written
  through are.  That cut is a byte offset and may fall inside a character:
  `stdout` then holds the whole characters before it and `torn` counts the
  bytes of the next character that went out with them.
* Returning from `main` is exit status 0; `log.Fatal` logs on standard error
  and leaves through `os.Exit(1)`, which runs no deferred call; a panic is exit
  status 2.
-/

set_option maxRecDepth 8000

namespace Cat

/-! ## The environment -/

/-- What the operating system answers for a path. -/
inductive FileState where
  /-- The path is reported absent: `os.Stat` fails with an `IsNotExist` error. -/
  | missing
  /-- The path is not reported absent, but `os.Open` fails with `err`. -/
  | unopenable (err : String)
  /-- The path opens; the scanner yields `lines` and then stops, and
  `scanner.Err()` is `err`. -/
  | readable (lines : List String) (err : Option String)
  deriving DecidableEq, Repr

/-- The file system seen by one run. -/
abbrev FileSystem := String → FileState

/-- The observable effects of a run so far. -/
structure Process where
  /-- Bytes delivered to standard output, in order. -/
  stdout : String
  /-- Paths opened with `os.Open`, in order. -/
  opened : List String
  /-- Paths whose deferred `file.Close()` has run, in order. -/
  closed : List String
  /-- Text handed to the buffered writer that never reached standard output,
  because `Flush` was never reached. -/
  unflushed : String
  /-- How many leading bytes of the first character of `unflushed` did reach
  standard output: the writer writes through at byte offsets. -/
  torn : Nat
  deriving DecidableEq, Repr

/-- The process before anything has happened. -/
def Process.init : Process :=
  { stdout := "", opened := [], closed := [], unflushed := "", torn := 0 }

/-- How a run ends. -/
inductive Outcome where
  /-- The function `main` returned: exit status 0. -/
  | returned
  /-- The call `log.Fatal(err)`: `err` is logged to standard error and the
  process exits with status 1 without running deferred calls. -/
  | fatal (err : String)
  /-- A run-time panic (index out of range): exit status 2. -/
  | panicked
  deriving DecidableEq, Repr

/-! ## The program -/

/-- The literal of `printHelpMessage`. -/
def helpMessage : String :=
  "Prints files to stdout.\nUsage: cat [OPTION].. [FILE].. \n\nOptions:\n-n, --number                Prefix each line in the output with its line number.\n-b, --number-nonblank       Prefix each nonempty line in the output with its line number. Overrides -n\n"

/-- What `printHelpMessage` writes: `fmt.Println(helpMessage)`. -/
def printHelpMessage : String :=
  helpMessage ++ "\n"

/-- The vocabulary returned by `validOptions`. -/
def validOptions : List String :=
  ["-b", "--number-nonblank", "-n", "--number", "-h", "--help"]

/-- The loop of `parseOptionsAndFiles`, with the two slices built so far. -/
def parseOptionsAndFiles.loop :
    List String → List String → List String → Option (List String × List String)
  | [], options, files => some (options, files)
  | arg :: rest, options, files =>
    match arg.data with
    | [] => none
    | c :: _ =>
      if c = '-' then parseOptionsAndFiles.loop rest (options ++ [arg]) files
      else parseOptionsAndFiles.loop rest options (files ++ [arg])

/-- The function `parseOptionsAndFiles`: `none` is the index-out-of-range panic
on an empty argument. -/
def parseOptionsAndFiles (args : List String) : Option (List String × List String) :=
  parseOptionsAndFiles.loop args [] []

/-- The function `fileExists`: false only when `os.Stat` reports `IsNotExist`. -/
def fileExists (fs : FileSystem) (path : String) : Bool :=
  match fs path with
  | .missing => false
  | _ => true

/-- The loop of `isValidOption` over the vocabulary. -/
def isValidOption.loop (option : String) : List String → Bool
  | [] => false
  | validOption :: rest =>
    if option = validOption then true else isValidOption.loop option rest

/-- The function `isValidOption`. -/
def isValidOption (option : String) : Bool :=
  isValidOption.loop option validOptions

/-- The option scan of `printFileContents` (lines 110-118): the pair
`(numberOption, numberNonBlankOption)` after the loop, from the pair before. -/
def printFileContents.flags : List String → Bool × Bool → Bool × Bool
  | [], acc => acc
  | o :: rest, (numberOption, numberNonBlankOption) =>
    if o = "-n" ∨ o = "--number" then
      printFileContents.flags rest (true, numberNonBlankOption)
    else if o = "-b" ∨ o = "--number-nonblank" then
      printFileContents.flags rest (numberOption, true)
    else
      printFileContents.flags rest (numberOption, numberNonBlankOption)

/-- The scanner loop of `printFileContents` (lines 125-140): the lines handed to
`fmt.Fprintln(writer, line)`, from the current `lineNumber` and the lines still
to scan. -/
def printFileContents.scan (numberOption numberNonBlankOption : Bool) :
    Nat → List String → List String
  | _, [] => []
  | lineNumber, line :: rest =>
    if numberNonBlankOption then
      if line ≠ "" then
        (Nat.repr lineNumber ++ " " ++ line) ::
          printFileContents.scan numberOption numberNonBlankOption (lineNumber + 1) rest
      else
        line :: printFileContents.scan numberOption numberNonBlankOption lineNumber rest
    else if numberOption then
      (Nat.repr lineNumber ++ " " ++ line) ::
        printFileContents.scan numberOption numberNonBlankOption (lineNumber + 1) rest
    else
      line :: printFileContents.scan numberOption numberNonBlankOption lineNumber rest

/-- The lines `printFileContents` hands to the writer for a file with the given
lines: the option scan, then the scanner loop with `lineNumber := 0`. -/
def printFileContents.written (options : List String) (lines : List String) : List String :=
  printFileContents.scan (printFileContents.flags options (false, false)).1
    (printFileContents.flags options (false, false)).2 0 lines

/-- The bytes of a sequence of `Fprintln` calls: every line followed by a newline. -/
def unlines (out : List String) : String :=
  String.join (out.map fun line => line ++ "\n")

/-- The buffer size of `bufio.NewWriter`. -/
def bufio.defaultBufSize : Nat := 4096

/-- The method `Write` of `bufio.Writer`, on byte counts.  The state is the number
of bytes already written through to the underlying stream and the number `n` of
bytes held in the buffer; `len` is the length of the slice written.  A slice that
fits is copied into the buffer.  One that does not fit goes straight to the stream
when the buffer is empty; otherwise the buffer is filled and flushed, and the rest
of the slice is buffered if it now fits and written directly if not. -/
def bufio.Writer.Write (state : Nat × Nat) (len : Nat) : Nat × Nat :=
  let through := state.1
  let n := state.2
  if len ≤ bufio.defaultBufSize - n then (through, n + len)
  else if n = 0 then (through + len, 0)
  else if len - (bufio.defaultBufSize - n) ≤ bufio.defaultBufSize then
    (through + bufio.defaultBufSize, len - (bufio.defaultBufSize - n))
  else (through + n + len, 0)

/-- The state of a fresh `bufio.Writer` after one `fmt.Fprintln(writer, line)` per
line: each call is one `Write` of the bytes of the line and a newline. -/
def bufio.Writer.afterLines (out : List String) : Nat × Nat :=
  out.foldl (fun state line => bufio.Writer.Write state (line.utf8ByteSize + 1)) (0, 0)

/-- The text cut at byte offset `k` of its UTF-8 encoding: the whole characters
within the first `k` bytes, the characters after them, and how many of the `k`
bytes are left over, which are leading bytes of the next character. -/
def splitAtByte : List Char → Nat → List Char × List Char × Nat
  | [], _ => ([], [], 0)
  | c :: cs, k =>
    if c.utf8Size ≤ k then
      ((c :: (splitAtByte cs (k - c.utf8Size)).1),
        (splitAtByte cs (k - c.utf8Size)).2.1, (splitAtByte cs (k - c.utf8Size)).2.2)
    else ([], c :: cs, k)

/-- The rendering of a file whose scan ends in an error, cut where the buffered
writer stands when `log.Fatal` ends the process: what was written through to
standard output, what was lost in the buffer, and the torn bytes between them. -/
def printFileContents.aborted (options : List String) (lines : List String) :
    List Char × List Char × Nat :=
  splitAtByte (unlines (printFileContents.written options lines)).data
    (bufio.Writer.afterLines (printFileContents.written options lines)).1

/-- The function `printFileContents`, from the process state before the call.
The second component is the error handed to `log.Fatal`, if any.  When the scan
ends without error, `writer.Flush()` delivers the whole rendering and the deferred
`file.Close()` runs; when it ends in an error, `log.Fatal` leaves with only the
bytes the writer had written through, and the file is not closed. -/
def printFileContents (fs : FileSystem) (path : String) (options : List String)
    (p : Process) : Process × Option String :=
  match fs path with
  | .missing => (p, some ("open " ++ path ++ ": no such file or directory"))
  | .unopenable err => (p, some err)
  | .readable lines (some err) =>
    ({ p with
        stdout := p.stdout ++ String.mk (printFileContents.aborted options lines).1,
        opened := p.opened ++ [path],
        unflushed := String.mk (printFileContents.aborted options lines).2.1,
        torn := (printFileContents.aborted options lines).2.2 }, some err)
  | .readable lines none =>
    ({ p with
        stdout := p.stdout ++ unlines (printFileContents.written options lines),
        opened := p.opened ++ [path],
        closed := p.closed ++ [path] }, none)

/-- The first loop of `main` (lines 15-20): the diagnostic printed when it
returns early. -/
def main.checkFiles (fs : FileSystem) : List String → Option String
  | [] => none
  | f :: rest =>
    if !fileExists fs f then some ("File '" ++ f ++ "' does not exist")
    else main.checkFiles fs rest

/-- The second loop of `main` (lines 22-31): the text printed when it returns
early. -/
def main.checkOptions : List String → Option String
  | [] => none
  | o :: rest =>
    if !isValidOption o then some (o ++ " is not a valid option.")
    else if o = "-h" ∨ o = "--help" then some printHelpMessage
    else main.checkOptions rest

/-- The third loop of `main` (lines 33-35). -/
def main.render (fs : FileSystem) (options : List String) :
    List String → Process → Process × Outcome
  | [], p => (p, .returned)
  | f :: rest, p =>
    match printFileContents fs f options p with
    | (q, some err) => (q, .fatal err)
    | (q, none) => main.render fs options rest q

/-- The function `main` on the arguments after the program name. -/
def main (fs : FileSystem) (args : List String) : Process × Outcome :=
  match parseOptionsAndFiles args with
  | none => (Process.init, .panicked)
  | some (options, files) =>
    match main.checkFiles fs files with
    | some msg => ({ Process.init with stdout := msg }, .returned)
    | none =>
      match main.checkOptions options with
      | some msg => ({ Process.init with stdout := msg }, .returned)
      | none => main.render fs options files Process.init

/-! ## Vocabulary of the specification -/

/-- The first character of the argument is a dash. -/
def startsWithDash (arg : String) : Bool :=
  arg.data.head? = some '-'

/-- A number option. -/
def isNumber (o : String) : Bool :=
  o = "-n" ∨ o = "--number"

/-- A number-nonblank option. -/
def isNumberNonBlank (o : String) : Bool :=
  o = "-b" ∨ o = "--number-nonblank"

/-- A help option. -/
def isHelp (o : String) : Bool :=
  o = "-h" ∨ o = "--help"

/-- A small file system used in the examples. -/
def exampleFS : FileSystem := fun path =>
  if path = "a.txt" then .readable ["foo", "", "bar"] none
  else if path = "b.txt" then .readable ["x", "y"] none
  else if path = "locked" then .unopenable "open locked: permission denied"
  else .missing

/-- The exit status of the process, from the way the run ends. -/
def Outcome.exitStatus : Outcome → Nat
  | .returned => 0
  | .fatal _ => 1
  | .panicked => 2

/-- Whether control in `main` reaches its third loop (line 33): the classifier
returned and neither validation loop returned early. -/
def main.reachesRendering (fs : FileSystem) (args : List String) : Bool :=
  match parseOptionsAndFiles args with
  | none => false
  | some (options, files) =>
    match main.checkFiles fs files with
    | some _ => false
    | none =>
      match main.checkOptions options with
      | some _ => false
      | none => true

/-- The short spelling of an option token; every other string is left as it is. -/
def shortSpelling (o : String) : String :=
  if o = "--number" then "-n"
  else if o = "--number-nonblank" then "-b"
  else if o = "--help" then "-h"
  else o

/-- A file system with paths that open and then fail while being read. -/
def faultyFS : FileSystem := fun path =>
  if path = "a.txt" then .readable ["foo", "", "bar"] none
  else if path = "dir" then .readable [] (some "read dir: is a directory")
  else if path = "long.txt" then .readable ["x", "y"] (some "bufio.Scanner: token too long")
  else .missing

/-- Two arguments that are the same, or the short and the long spelling of one
option, in either direction. -/
def respelled (a b : String) : Prop :=
  a = b ∨ (a = "-n" ∧ b = "--number") ∨ (a = "--number" ∧ b = "-n") ∨
    (a = "-b" ∧ b = "--number-nonblank") ∨ (a = "--number-nonblank" ∧ b = "-b") ∨
    (a = "-h" ∧ b = "--help") ∨ (a = "--help" ∧ b = "-h")

/-! ## Lemmas on the classifier -/

theorem ne_empty_iff_data (a : String) : a ≠ "" ↔ a.data ≠ [] := by
  cases a with
  | mk data =>
    constructor
    · intro h hd
      apply h
      simp only at hd
      subst hd
      rfl
    · intro h ha
      apply h
      simp only
      have := congrArg String.data ha
      simpa using this

theorem parse_loop_eq (args : List String) (h : ∀ a ∈ args, a ≠ "") :
    ∀ options files : List String,
      parseOptionsAndFiles.loop args options files =
        some (options ++ args.filter startsWithDash,
              files ++ args.filter (fun a => !startsWithDash a)) := by
  induction args with
  | nil => intro options files; simp [parseOptionsAndFiles.loop]
  | cons arg rest ih =>
    intro options files
    have hrest : ∀ a ∈ rest, a ≠ "" := fun a ha => h a (List.mem_cons_of_mem _ ha)
    have harg : arg.data ≠ [] := (ne_empty_iff_data arg).1 (h arg (List.mem_cons_self _ _))
    cases hd : arg.data with
    | nil => exact absurd hd harg
    | cons c cs =>
      by_cases hc : c = '-'
      · have hs : startsWithDash arg = true := by simp [startsWithDash, hd, hc]
        simp [parseOptionsAndFiles.loop, hd, hc, ih hrest, hs]
      · have hs : startsWithDash arg = false := by simp [startsWithDash, hd, hc]
        simp [parseOptionsAndFiles.loop, hd, hc, ih hrest, hs]

theorem parse_eq (args : List String) (h : ∀ a ∈ args, a ≠ "") :
    parseOptionsAndFiles args =
      some (args.filter startsWithDash, args.filter (fun a => !startsWithDash a)) := by
  simp [parseOptionsAndFiles, parse_loop_eq args h]

/-! ## Lemmas on the renderer -/

theorem flags_fst (options : List String) :
    ∀ acc : Bool × Bool,
      (printFileContents.flags options acc).1 = (acc.1 || options.any isNumber) := by
  induction options with
  | nil => intro acc; simp [printFileContents.flags]
  | cons o rest ih =>
    intro acc
    obtain ⟨a, b⟩ := acc
    by_cases h1 : o = "-n" ∨ o = "--number"
    · simp [printFileContents.flags, h1, ih, isNumber]
    · by_cases h2 : o = "-b" ∨ o = "--number-nonblank"
      · simp [printFileContents.flags, h1, h2, ih, isNumber]
      · simp [printFileContents.flags, h1, h2, ih, isNumber]

theorem flags_snd (options : List String) :
    ∀ acc : Bool × Bool,
      (printFileContents.flags options acc).2 = (acc.2 || options.any isNumberNonBlank) := by
  induction options with
  | nil => intro acc; simp [printFileContents.flags]
  | cons o rest ih =>
    intro acc
    obtain ⟨a, b⟩ := acc
    by_cases h1 : o = "-n" ∨ o = "--number"
    · have h2 : ¬ (o = "-b" ∨ o = "--number-nonblank") := by
        rcases h1 with h | h <;> subst h <;> decide
      simp [printFileContents.flags, h1, h2, ih, isNumberNonBlank]
    · by_cases h2 : o = "-b" ∨ o = "--number-nonblank"
      · simp [printFileContents.flags, h1, h2, ih, isNumberNonBlank]
      · simp [printFileContents.flags, h1, h2, ih, isNumberNonBlank]

theorem any_isNumber (options : List String) :
    options.any isNumber = true ↔ "-n" ∈ options ∨ "--number" ∈ options := by
  simp only [List.any_eq_true, isNumber, decide_eq_true_eq]
  constructor
  · rintro ⟨o, ho, h | h⟩
    · exact Or.inl (h ▸ ho)
    · exact Or.inr (h ▸ ho)
  · rintro (h | h)
    · exact ⟨_, h, Or.inl rfl⟩
    · exact ⟨_, h, Or.inr rfl⟩

theorem any_isNumberNonBlank (options : List String) :
    options.any isNumberNonBlank = true ↔
      "-b" ∈ options ∨ "--number-nonblank" ∈ options := by
  simp only [List.any_eq_true, isNumberNonBlank, decide_eq_true_eq]
  constructor
  · rintro ⟨o, ho, h | h⟩
    · exact Or.inl (h ▸ ho)
    · exact Or.inr (h ▸ ho)
  · rintro (h | h)
    · exact ⟨_, h, Or.inl rfl⟩
    · exact ⟨_, h, Or.inr rfl⟩

theorem written_eq (options lines : List String) :
    printFileContents.written options lines =
      printFileContents.scan (options.any isNumber) (options.any isNumberNonBlank) 0 lines := by
  simp [printFileContents.written, flags_fst, flags_snd]

theorem scan_length (a b : Bool) (lines : List String) :
    ∀ n, (printFileContents.scan a b n lines).length = lines.length := by
  induction lines with
  | nil => intro n; simp [printFileContents.scan]
  | cons line rest ih =>
    intro n
    unfold printFileContents.scan
    split_ifs <;> simp [ih]

theorem scan_nonblank_get (a : Bool) (lines : List String) :
    ∀ (n i : Nat) (hi : i < lines.length),
      (printFileContents.scan a true n lines)[i]? =
        some (if lines[i] = "" then ""
              else Nat.repr (n + (lines.take i).countP (fun l => l ≠ "")) ++ " " ++ lines[i]) := by
  induction lines with
  | nil => intro n i hi; simp at hi
  | cons line rest ih =>
    intro n i hi
    cases i with
    | zero =>
      by_cases hl : line = ""
      · simp [printFileContents.scan, hl]
      · simp [printFileContents.scan, hl]
    | succ j =>
      have hj : j < rest.length := by simpa using hi
      by_cases hl : line = ""
      · simp [printFileContents.scan, hl, ih n j hj]
      · have hn : ∀ m : Nat, n + 1 + m = n + (m + 1) := fun m => by omega
        simp [printFileContents.scan, hl, ih (n + 1) j hj, List.countP_cons, hn]

theorem scan_number_get (lines : List String) :
    ∀ (n i : Nat) (hi : i < lines.length),
      (printFileContents.scan true false n lines)[i]? =
        some (Nat.repr (n + i) ++ " " ++ lines[i]) := by
  induction lines with
  | nil => intro n i hi; simp at hi
  | cons line rest ih =>
    intro n i hi
    cases i with
    | zero => simp [printFileContents.scan]
    | succ j =>
      have hj : j < rest.length := by simpa using hi
      simp [printFileContents.scan, ih (n + 1) j hj, Nat.add_comm, Nat.add_left_comm]

theorem scan_plain (lines : List String) :
    ∀ n, printFileContents.scan false false n lines = lines := by
  induction lines with
  | nil => intro n; simp [printFileContents.scan]
  | cons line rest ih => intro n; simp [printFileContents.scan, ih]

theorem scan_nonblank_irrel (a b : Bool) (lines : List String) :
    ∀ n, printFileContents.scan a true n lines = printFileContents.scan b true n lines := by
  induction lines with
  | nil => intro n; simp [printFileContents.scan]
  | cons line rest ih =>
    intro n
    by_cases hl : line = ""
    · simp [printFileContents.scan, hl, ih n]
    · simp [printFileContents.scan, hl, ih (n + 1)]

theorem printFileContents_readable (fs : FileSystem) (path : String)
    (options lines : List String) (p : Process) (hfile : fs path = .readable lines none) :
    printFileContents fs path options p =
      ({ p with
          stdout := p.stdout ++ unlines (printFileContents.written options lines),
          opened := p.opened ++ [path],
          closed := p.closed ++ [path] }, none) := by
  simp [printFileContents, hfile]

/-! ## Lemmas on the validation loops -/

theorem checkFiles_missing (fs : FileSystem) (files : List String)
    (h : ∃ f ∈ files, fileExists fs f = false) :
    ∃ pre p post, files = pre ++ p :: post ∧ (∀ f ∈ pre, fileExists fs f = true) ∧
      fileExists fs p = false ∧
      main.checkFiles fs files = some ("File '" ++ p ++ "' does not exist") := by
  induction files with
  | nil => simp at h
  | cons f rest ih =>
    by_cases hf : fileExists fs f = true
    · have hrest : ∃ g ∈ rest, fileExists fs g = false := by
        obtain ⟨g, hg, hgf⟩ := h
        rcases List.mem_cons.1 hg with rfl | hg
        · simp [hf] at hgf
        · exact ⟨g, hg, hgf⟩
      obtain ⟨pre, p, post, hsplit, hpre, hp, hcheck⟩ := ih hrest
      refine ⟨f :: pre, p, post, by simp [hsplit], ?_, hp, ?_⟩
      · intro g hg
        rcases List.mem_cons.1 hg with rfl | hg
        · exact hf
        · exact hpre g hg
      · simp [main.checkFiles, hf, hcheck]
    · have hf0 : fileExists fs f = false := by simpa using hf
      exact ⟨[], f, rest, rfl, by simp, hf0, by simp [main.checkFiles, hf0]⟩

theorem checkFiles_none (fs : FileSystem) (files : List String)
    (h : ∀ f ∈ files, fileExists fs f = true) : main.checkFiles fs files = none := by
  induction files with
  | nil => rfl
  | cons f rest ih =>
    have hf : fileExists fs f = true := h f (List.mem_cons_self _ _)
    simp [main.checkFiles, hf, ih fun g hg => h g (List.mem_cons_of_mem _ hg)]

theorem isValidOption_iff (s : String) :
    isValidOption s = true ↔
      s = "-b" ∨ s = "--number-nonblank" ∨ s = "-n" ∨ s = "--number" ∨ s = "-h" ∨
        s = "--help" := by
  simp [isValidOption, isValidOption.loop, validOptions]

theorem isValidOption_of_isHelp (o : String) (h : isHelp o = true) :
    isValidOption o = true := by
  rw [isValidOption_iff]
  simp only [isHelp, decide_eq_true_eq] at h
  rcases h with h | h
  · exact Or.inr (Or.inr (Or.inr (Or.inr (Or.inl h))))
  · exact Or.inr (Or.inr (Or.inr (Or.inr (Or.inr h))))

theorem checkOptions_invalid (pre post : List String) (o : String)
    (hpre : ∀ x ∈ pre, isValidOption x = true ∧ isHelp x = false)
    (ho : isValidOption o = false) :
    main.checkOptions (pre ++ o :: post) = some (o ++ " is not a valid option.") := by
  induction pre with
  | nil => simp [main.checkOptions, ho]
  | cons x rest ih =>
    obtain ⟨hv, hh⟩ := hpre x (List.mem_cons_self _ _)
    have hh2 : ¬ (x = "-h" ∨ x = "--help") := by simpa [isHelp] using hh
    simp [main.checkOptions, hv, hh2, ih fun y hy => hpre y (List.mem_cons_of_mem _ hy)]

theorem checkOptions_help (pre post : List String) (o : String)
    (hpre : ∀ x ∈ pre, isValidOption x = true ∧ isHelp x = false)
    (ho : isHelp o = true) :
    main.checkOptions (pre ++ o :: post) = some printHelpMessage := by
  induction pre with
  | nil =>
    have hv := isValidOption_of_isHelp o ho
    have hh : o = "-h" ∨ o = "--help" := by simpa [isHelp] using ho
    simp [main.checkOptions, hv, hh]
  | cons x rest ih =>
    obtain ⟨hv, hh⟩ := hpre x (List.mem_cons_self _ _)
    have hh2 : ¬ (x = "-h" ∨ x = "--help") := by simpa [isHelp] using hh
    simp [main.checkOptions, hv, hh2, ih fun y hy => hpre y (List.mem_cons_of_mem _ hy)]

theorem checkOptions_none (options : List String)
    (h : ∀ o ∈ options, isValidOption o = true ∧ isHelp o = false) :
    main.checkOptions options = none := by
  induction options with
  | nil => rfl
  | cons x rest ih =>
    obtain ⟨hv, hh⟩ := h x (List.mem_cons_self _ _)
    have hh2 : ¬ (x = "-h" ∨ x = "--help") := by simpa [isHelp] using hh
    simp [main.checkOptions, hv, hh2, ih fun y hy => h y (List.mem_cons_of_mem _ hy)]

theorem foldl_append_start (l : List String) :
    ∀ a : String, l.foldl (fun r s => r ++ s) a = a ++ l.foldl (fun r s => r ++ s) "" := by
  induction l with
  | nil => intro a; simp
  | cons x rest ih =>
    intro a
    rw [List.foldl_cons, List.foldl_cons, ih (a ++ x), ih ("" ++ x)]
    simp [String.append_assoc]

theorem join_cons (a : String) (l : List String) :
    String.join (a :: l) = a ++ String.join l := by
  simp only [String.join, List.foldl_cons]
  rw [foldl_append_start l ("" ++ a)]
  simp

theorem render_readable (fs : FileSystem) (options files : List String)
    (h : ∀ f ∈ files, ∃ lines, fs f = .readable lines none) :
    ∀ p : Process,
      main.render fs options files p =
        ({ p with
            stdout := p.stdout ++ String.join
              (files.map fun f => (printFileContents fs f options Process.init).1.stdout),
            opened := p.opened ++ files,
            closed := p.closed ++ files }, .returned) := by
  induction files with
  | nil => intro p; simp [main.render, String.join]
  | cons f rest ih =>
    intro p
    obtain ⟨lines, hlines⟩ := h f (List.mem_cons_self _ _)
    have hrest := ih fun g hg => h g (List.mem_cons_of_mem _ hg)
    simp [main.render, printFileContents_readable fs f options lines _ hlines, hrest,
      Process.init, join_cons, String.append_assoc]

/-! ## The claims -/

/-- Claim C1: on arguments that are all non-empty, `parseOptionsAndFiles` returns as
options exactly the arguments whose first character is a dash and as files exactly
all the others, each in the original order; the two sequences together hold every
argument once, so their lengths add up to the number of arguments. -/
theorem parseOptionsAndFiles_partition (args : List String) (h : ∀ a ∈ args, a ≠ "") :
    parseOptionsAndFiles args =
        some (args.filter startsWithDash, args.filter (fun a => !startsWithDash a)) ∧
      (args.filter startsWithDash).length +
          (args.filter (fun a => !startsWithDash a)).length = args.length ∧
      (args.filter startsWithDash ++ args.filter (fun a => !startsWithDash a)).Perm args := by
  have hperm := List.filter_append_perm startsWithDash args
  refine ⟨parse_eq args h, ?_, hperm⟩
  simpa using hperm.length_eq

theorem parseOptionsAndFiles_partition_witness :
    (∀ a ∈ ["-n", "a.txt", "--x", "b.txt", "-"], a ≠ "") ∧
      parseOptionsAndFiles ["-n", "a.txt", "--x", "b.txt", "-"] =
        some (["-n", "--x", "-"], ["a.txt", "b.txt"]) :=
  ⟨by decide, (parseOptionsAndFiles_partition ["-n", "a.txt", "--x", "b.txt", "-"] (by decide)).1⟩

/-- Claim C2: with `-b` or `--number-nonblank` among the options, a file read as
`lines` is written line for line; a non-empty line becomes the decimal count of the
non-empty lines before it, a space, and the line; an empty line is written empty and
does not advance the count. -/
theorem number_nonblank_labels (fs : FileSystem) (path : String)
    (options lines : List String) (p : Process)
    (hfile : fs path = .readable lines none)
    (hopt : "-b" ∈ options ∨ "--number-nonblank" ∈ options) :
    (printFileContents fs path options p).1.stdout =
        p.stdout ++ unlines (printFileContents.written options lines) ∧
      (printFileContents.written options lines).length = lines.length ∧
      ∀ (i : Nat) (hi : i < lines.length),
        (lines[i] ≠ "" →
          (printFileContents.written options lines)[i]? =
            some (Nat.repr ((lines.take i).countP (fun l => l ≠ "")) ++ " " ++ lines[i])) ∧
        (lines[i] = "" → (printFileContents.written options lines)[i]? = some "") := by
  have hb : options.any isNumberNonBlank = true := (any_isNumberNonBlank options).2 hopt
  refine ⟨by rw [printFileContents_readable fs path options lines p hfile], ?_, ?_⟩
  · rw [written_eq, scan_length]
  · intro i hi
    rw [written_eq, hb, scan_nonblank_get _ lines 0 i hi]
    constructor
    · intro hl; simp [hl]
    · intro hl; simp [hl]

theorem number_nonblank_labels_witness :
    (printFileContents.written ["-b"] ["foo", "", "bar"])[2]? = some "1 bar" ∧
      (printFileContents.written ["-b"] ["foo", "", "bar"])[1]? = some "" :=
  ⟨((number_nonblank_labels exampleFS "a.txt" ["-b"] ["foo", "", "bar"] Process.init
      (by decide) (by decide)).2.2 2 (by decide)).1 (by decide),
   ((number_nonblank_labels exampleFS "a.txt" ["-b"] ["foo", "", "bar"] Process.init
      (by decide) (by decide)).2.2 1 (by decide)).2 (by decide)⟩

/-- Claim C3: with `-n` or `--number` among the options and neither `-b` nor
`--number-nonblank`, the `i`-th line (from 0) of a file read as `lines` is written as
the decimal rendering of `i`, a space, and the line; an empty line is written as its
label followed by the space. -/
theorem number_labels (fs : FileSystem) (path : String)
    (options lines : List String) (p : Process)
    (hfile : fs path = .readable lines none)
    (hn : "-n" ∈ options ∨ "--number" ∈ options)
    (hb : "-b" ∉ options ∧ "--number-nonblank" ∉ options) :
    (printFileContents fs path options p).1.stdout =
        p.stdout ++ unlines (printFileContents.written options lines) ∧
      (printFileContents.written options lines).length = lines.length ∧
      ∀ (i : Nat) (hi : i < lines.length),
        (printFileContents.written options lines)[i]? =
            some (Nat.repr i ++ " " ++ lines[i]) ∧
        (lines[i] = "" →
          (printFileContents.written options lines)[i]? = some (Nat.repr i ++ " ")) := by
  have h1 : options.any isNumber = true := (any_isNumber options).2 hn
  have h2 : options.any isNumberNonBlank = false := by
    cases hany : options.any isNumberNonBlank with
    | false => rfl
    | true =>
      rcases (any_isNumberNonBlank options).1 hany with h | h
      · exact absurd h hb.1
      · exact absurd h hb.2
  refine ⟨by rw [printFileContents_readable fs path options lines p hfile], ?_, ?_⟩
  · rw [written_eq, scan_length]
  · intro i hi
    rw [written_eq, h1, h2, scan_number_get lines 0 i hi]
    constructor
    · simp
    · intro hl; simp [hl]

theorem number_labels_witness :
    (printFileContents.written ["-n"] ["foo", "", "bar"]).length = 3 ∧
      (printFileContents.written ["-n"] ["foo", "", "bar"])[1]? = some "1 " :=
  ⟨(number_labels exampleFS "a.txt" ["-n"] ["foo", "", "bar"] Process.init
      (by decide) (by decide) (by decide)).2.1,
   ((number_labels exampleFS "a.txt" ["-n"] ["foo", "", "bar"] Process.init
      (by decide) (by decide) (by decide)).2.2 1 (by decide)).2 (by decide)⟩

/-- Claim C4, number-nonblank precedence: when the options hold both a number option
and a number-nonblank option, in any order, `printFileContents` does exactly what it
does with the number-nonblank option alone, be it `-b`, `--number-nonblank`, or the
same option list with its number options removed. -/
theorem number_nonblank_precedence (fs : FileSystem) (path : String)
    (options : List String) (p : Process)
    (hn : "-n" ∈ options ∨ "--number" ∈ options)
    (hb : "-b" ∈ options ∨ "--number-nonblank" ∈ options) :
    printFileContents fs path options p = printFileContents fs path ["-b"] p ∧
      printFileContents fs path options p =
        printFileContents fs path ["--number-nonblank"] p ∧
      printFileContents fs path options p =
        printFileContents fs path (options.filter fun o => !isNumber o) p := by
  have h1 : options.any isNumber = true := (any_isNumber options).2 hn
  have h2 : options.any isNumberNonBlank = true := (any_isNumberNonBlank options).2 hb
  have h3 : (options.filter fun o => !isNumber o).any isNumberNonBlank = true := by
    rw [any_isNumberNonBlank]
    rcases hb with h | h
    · exact Or.inl (List.mem_filter.2 ⟨h, by decide⟩)
    · exact Or.inr (List.mem_filter.2 ⟨h, by decide⟩)
  have key : ∀ other : List String, other.any isNumberNonBlank = true →
      ∀ lines, printFileContents.written options lines =
        printFileContents.written other lines := by
    intro other hother lines
    rw [written_eq, written_eq, h2, hother]
    exact scan_nonblank_irrel _ _ lines 0
  have hfull : ∀ other : List String, other.any isNumberNonBlank = true →
      printFileContents fs path options p = printFileContents fs path other p := by
    intro other hother
    unfold printFileContents
    cases fs path with
    | missing => rfl
    | unopenable err => rfl
    | readable lines err =>
      cases err with
      | none => simp only [key other hother lines]
      | some e => simp only [printFileContents.aborted, key other hother lines]
  exact ⟨hfull _ (by decide), hfull _ (by decide), hfull _ h3⟩

theorem number_nonblank_precedence_witness :
    (printFileContents exampleFS "a.txt" ["-n", "-b"] Process.init).1.stdout =
        "0 foo\n\n1 bar\n" ∧
      printFileContents exampleFS "a.txt" ["-b", "--number"] Process.init =
        printFileContents exampleFS "a.txt" ["-b"] Process.init :=
  ⟨by decide,
   (number_nonblank_precedence exampleFS "a.txt" ["-b", "--number"] Process.init
      (by decide) (by decide)).1⟩

/-- Claim C5: with none of `-n`, `--number`, `-b`, `--number-nonblank` among the
options, the lines written for a file are the lines of the file. -/
theorem no_numbering_identity (fs : FileSystem) (path : String)
    (options lines : List String) (p : Process)
    (hfile : fs path = .readable lines none)
    (hnone : "-n" ∉ options ∧ "--number" ∉ options ∧ "-b" ∉ options ∧
      "--number-nonblank" ∉ options) :
    printFileContents.written options lines = lines ∧
      (printFileContents fs path options p).1.stdout = p.stdout ++ unlines lines := by
  have h1 : options.any isNumber = false := by
    cases hany : options.any isNumber with
    | false => rfl
    | true =>
      rcases (any_isNumber options).1 hany with h | h
      · exact absurd h hnone.1
      · exact absurd h hnone.2.1
  have h2 : options.any isNumberNonBlank = false := by
    cases hany : options.any isNumberNonBlank with
    | false => rfl
    | true =>
      rcases (any_isNumberNonBlank options).1 hany with h | h
      · exact absurd h hnone.2.2.1
      · exact absurd h hnone.2.2.2
  have hw : printFileContents.written options lines = lines := by
    rw [written_eq, h1, h2, scan_plain]
  exact ⟨hw, by rw [printFileContents_readable fs path options lines p hfile, hw]⟩

theorem no_numbering_identity_witness :
    printFileContents.written ["-h", "-x"] ["foo", "", "bar"] = ["foo", "", "bar"] :=
  (no_numbering_identity exampleFS "a.txt" ["-h", "-x"] ["foo", "", "bar"] Process.init
    (by decide) (by decide)).1

/-- Claim C6: when the arguments are all non-empty and some file path does not exist,
the whole output of the run is `File '<p>' does not exist` for the first such path
`p` in command-line order, nothing is opened or rendered, and this is so whatever
the options are. -/
theorem missing_file_diagnostic (fs : FileSystem) (args : List String)
    (hne : ∀ a ∈ args, a ≠ "")
    (hmiss : ∃ f ∈ args.filter (fun a => !startsWithDash a), fileExists fs f = false) :
    ∃ pre p post,
      args.filter (fun a => !startsWithDash a) = pre ++ p :: post ∧
      (∀ f ∈ pre, fileExists fs f = true) ∧ fileExists fs p = false ∧
      main fs args =
        ({ Process.init with stdout := "File '" ++ p ++ "' does not exist" }, .returned) := by
  obtain ⟨pre, p, post, hsplit, hpre, hp, hcheck⟩ := checkFiles_missing fs _ hmiss
  refine ⟨pre, p, post, hsplit, hpre, hp, ?_⟩
  simp [main, parse_eq args hne, hcheck]

theorem missing_file_diagnostic_witness :
    ∃ pre p post,
      ["-x", "a.txt", "-h", "nope", "b.txt", "gone"].filter (fun a => !startsWithDash a) =
        pre ++ p :: post ∧
      (∀ f ∈ pre, fileExists exampleFS f = true) ∧ fileExists exampleFS p = false ∧
      main exampleFS ["-x", "a.txt", "-h", "nope", "b.txt", "gone"] =
        ({ Process.init with stdout := "File '" ++ p ++ "' does not exist" }, .returned) :=
  missing_file_diagnostic exampleFS ["-x", "a.txt", "-h", "nope", "b.txt", "gone"]
    (by decide) ⟨"nope", by decide, by decide⟩

/-- Claim C7 fails as stated: with every file present and the unrecognized option
`-x` on the command line, the run `-h -x a.txt` prints the help text and not the
diagnostic naming `-x`, because the help option comes first. -/
theorem invalid_option_diagnostic_counterexample :
    parseOptionsAndFiles ["-h", "-x", "a.txt"] = some (["-h", "-x"], ["a.txt"]) ∧
      fileExists exampleFS "a.txt" = true ∧ isValidOption "-x" = false ∧
      main exampleFS ["-h", "-x", "a.txt"] =
        ({ Process.init with stdout := printHelpMessage }, .returned) ∧
      (main exampleFS ["-h", "-x", "a.txt"]).1.stdout ≠ "-x is not a valid option." := by
  decide

/-- Claim C7, amended: when the arguments are all non-empty, every file path exists,
some option is unrecognized and no help option comes before the first unrecognized
option `o`, the whole output of the run is `<o> is not a valid option.` and nothing
is opened or rendered. -/
theorem invalid_option_diagnostic (fs : FileSystem) (args pre post : List String)
    (o : String)
    (hne : ∀ a ∈ args, a ≠ "")
    (hfiles : ∀ f ∈ args.filter (fun a => !startsWithDash a), fileExists fs f = true)
    (hsplit : args.filter startsWithDash = pre ++ o :: post)
    (hpre : ∀ x ∈ pre, isValidOption x = true ∧ isHelp x = false)
    (ho : isValidOption o = false) :
    main fs args =
      ({ Process.init with stdout := o ++ " is not a valid option." }, .returned) := by
  simp [main, parse_eq args hne, checkFiles_none fs _ hfiles, hsplit,
    checkOptions_invalid pre post o hpre ho]

theorem invalid_option_diagnostic_witness :
    main exampleFS ["-n", "a.txt", "-x", "b.txt", "-h", "-y"] =
      ({ Process.init with stdout := "-x is not a valid option." }, .returned) :=
  invalid_option_diagnostic exampleFS ["-n", "a.txt", "-x", "b.txt", "-h", "-y"]
    ["-n"] ["-h", "-y"] "-x" (by decide) (by decide) (by decide) (by decide) (by decide)

/-- Claim C8 fails as stated: with every file present and `-h` among the options, the
run `-x -h a.txt` prints the diagnostic naming `-x` and not the help text, because
the unrecognized option comes first. -/
theorem help_short_circuit_counterexample :
    parseOptionsAndFiles ["-x", "-h", "a.txt"] = some (["-x", "-h"], ["a.txt"]) ∧
      fileExists exampleFS "a.txt" = true ∧
      main exampleFS ["-x", "-h", "a.txt"] =
        ({ Process.init with stdout := "-x is not a valid option." }, .returned) ∧
      (main exampleFS ["-x", "-h", "a.txt"]).1.stdout ≠ printHelpMessage := by
  decide

/-- Claim C8, amended: when the arguments are all non-empty, every file path exists,
the options hold `-h` or `--help` and every option before the first help option is
recognized, the whole output of the run is the help text as `printHelpMessage`
prints it, and nothing is opened or rendered, whatever files are supplied and
whatever options follow the help option. -/
theorem help_short_circuit (fs : FileSystem) (args pre post : List String) (o : String)
    (hne : ∀ a ∈ args, a ≠ "")
    (hfiles : ∀ f ∈ args.filter (fun a => !startsWithDash a), fileExists fs f = true)
    (hsplit : args.filter startsWithDash = pre ++ o :: post)
    (hpre : ∀ x ∈ pre, isValidOption x = true ∧ isHelp x = false)
    (ho : isHelp o = true) :
    main fs args = ({ Process.init with stdout := printHelpMessage }, .returned) := by
  simp [main, parse_eq args hne, checkFiles_none fs _ hfiles, hsplit,
    checkOptions_help pre post o hpre ho]

theorem help_short_circuit_witness :
    main exampleFS ["-b", "a.txt", "--help", "-x", "b.txt", "-h"] =
      ({ Process.init with stdout := helpMessage ++ "\n" }, .returned) :=
  help_short_circuit exampleFS ["-b", "a.txt", "--help", "-x", "b.txt", "-h"]
    ["-b"] ["-x", "-h"] "--help" (by decide) (by decide) (by decide) (by decide) (by decide)

/-- Claim C9 fails as stated: both `locked` and `b.txt` exist and there are no
options, yet the run on `locked b.txt` writes nothing, since opening `locked` fails
and ends the process, while `b.txt` rendered on its own writes its two lines. -/
theorem render_concatenation_counterexample :
    parseOptionsAndFiles ["locked", "b.txt"] = some ([], ["locked", "b.txt"]) ∧
      (∀ f ∈ ["locked", "b.txt"], fileExists exampleFS f = true) ∧
      (main exampleFS ["locked", "b.txt"]).1.stdout = "" ∧
      String.join (["locked", "b.txt"].map fun f =>
        (printFileContents exampleFS f [] Process.init).1.stdout) = "x\ny\n" := by
  decide

/-- Claim C9, amended: when the arguments classify into `options` and `files`, every
file opens and is read to its end without error, and every option is recognized and
none is a help option, the output of the run is the concatenation, in command-line
order, of what `printFileContents` writes for each file on its own from a fresh
process, counter at 0; every file is opened and closed once, in order, and the run
returns. -/
theorem render_concatenation (fs : FileSystem) (args options files : List String)
    (hparse : parseOptionsAndFiles args = some (options, files))
    (hfiles : ∀ f ∈ files, ∃ lines, fs f = .readable lines none)
    (hopts : ∀ o ∈ options, isValidOption o = true ∧ isHelp o = false) :
    main fs args =
      ({ Process.init with
          stdout := String.join (files.map fun f =>
            (printFileContents fs f options Process.init).1.stdout),
          opened := files,
          closed := files }, .returned) := by
  have hexist : ∀ f ∈ files, fileExists fs f = true := by
    intro f hf
    obtain ⟨lines, hl⟩ := hfiles f hf
    simp [fileExists, hl]
  simp [main, hparse, checkFiles_none fs _ hexist, checkOptions_none _ hopts,
    render_readable fs _ _ hfiles, Process.init]

theorem render_concatenation_witness :
    (main exampleFS ["-n", "a.txt", "b.txt", "a.txt"]).1.stdout =
      "0 foo\n1 \n2 bar\n0 x\n1 y\n0 foo\n1 \n2 bar\n" :=
  congrArg (fun r => r.1.stdout)
    (render_concatenation exampleFS ["-n", "a.txt", "b.txt", "a.txt"] ["-n"]
      ["a.txt", "b.txt", "a.txt"] (by decide)
      (by
        intro f hf
        have hmem : f = "a.txt" ∨ f = "b.txt" := by
          revert f
          decide
        rcases hmem with rfl | rfl
        · exact ⟨["foo", "", "bar"], by decide⟩
        · exact ⟨["x", "y"], by decide⟩)
      (by decide))

/-- Claim C10: `isValidOption` accepts a string exactly when it is one of `-b`,
`--number-nonblank`, `-n`, `--number`, `-h`, `--help`; a combined flag, a proper
prefix, an extended token or a different letter case is rejected. -/
theorem isValidOption_exact :
    (∀ s : String, isValidOption s = true ↔
      s = "-b" ∨ s = "--number-nonblank" ∨ s = "-n" ∨ s = "--number" ∨ s = "-h" ∨
        s = "--help") ∧
      isValidOption "-nb" = false ∧ isValidOption "--num" = false ∧
      isValidOption "--number=1" = false ∧ isValidOption "-N" = false ∧
      isValidOption "--HELP" = false ∧ isValidOption "-" = false := by
  refine ⟨isValidOption_iff, ?_⟩
  decide

/-! ## Lemmas on the spelling of options -/

theorem shortSpelling_cases (o : String) :
    (o = "--number" ∧ shortSpelling o = "-n") ∨
      (o = "--number-nonblank" ∧ shortSpelling o = "-b") ∨
      (o = "--help" ∧ shortSpelling o = "-h") ∨
      (o ≠ "-n" ∧ o ≠ "-b" ∧ o ≠ "-h" ∧ shortSpelling o = o) ∨
      shortSpelling o = o ∧ (o = "-n" ∨ o = "-b" ∨ o = "-h") := by
  unfold shortSpelling
  by_cases h1 : o = "--number"
  · exact Or.inl ⟨h1, by simp [h1]⟩
  · by_cases h2 : o = "--number-nonblank"
    · exact Or.inr (Or.inl ⟨h2, by simp [h2]⟩)
    · by_cases h3 : o = "--help"
      · exact Or.inr (Or.inr (Or.inl ⟨h3, by simp [h3]⟩))
      · have hs : (if o = "--number" then "-n" else
            if o = "--number-nonblank" then "-b" else
            if o = "--help" then "-h" else o) = o := by simp [h1, h2, h3]
        by_cases h4 : o = "-n" ∨ o = "-b" ∨ o = "-h"
        · exact Or.inr (Or.inr (Or.inr (Or.inr ⟨hs, h4⟩)))
        · have h5 : o ≠ "-n" ∧ o ≠ "-b" ∧ o ≠ "-h" := by
            refine ⟨fun h => h4 (Or.inl h), fun h => h4 (Or.inr (Or.inl h)),
              fun h => h4 (Or.inr (Or.inr h))⟩
          exact Or.inr (Or.inr (Or.inr (Or.inl ⟨h5.1, h5.2.1, h5.2.2, hs⟩)))

theorem shortSpelling_props (o : String) :
    isNumber (shortSpelling o) = isNumber o ∧
      isNumberNonBlank (shortSpelling o) = isNumberNonBlank o ∧
      isHelp (shortSpelling o) = isHelp o ∧
      isValidOption (shortSpelling o) = isValidOption o ∧
      startsWithDash (shortSpelling o) = startsWithDash o ∧
      (shortSpelling o = "" ↔ o = "") ∧
      (startsWithDash o = false → shortSpelling o = o) ∧
      (isValidOption o = false → shortSpelling o = o) := by
  rcases shortSpelling_cases o with ⟨h, hs⟩ | ⟨h, hs⟩ | ⟨h, hs⟩ | ⟨_, _, _, hs⟩ | ⟨hs, _⟩
  · subst h; rw [hs]; decide
  · subst h; rw [hs]; decide
  · subst h; rw [hs]; decide
  · rw [hs]; simp
  · rw [hs]; simp

theorem respelled_short (a b : String) (h : respelled a b) :
    shortSpelling a = shortSpelling b := by
  rcases h with h | ⟨h1, h2⟩ | ⟨h1, h2⟩ | ⟨h1, h2⟩ | ⟨h1, h2⟩ | ⟨h1, h2⟩ | ⟨h1, h2⟩
  · rw [h]
  all_goals subst h1; subst h2; decide

theorem respelled_map (args other : List String) (h : List.Forall₂ respelled args other) :
    args.map shortSpelling = other.map shortSpelling := by
  induction h with
  | nil => rfl
  | cons hab _ ih => simp [respelled_short _ _ hab, ih]

theorem parse_loop_cons (arg : String) (rest options files : List String) :
    parseOptionsAndFiles.loop (arg :: rest) options files =
      if arg = "" then none
      else if startsWithDash arg = true then
        parseOptionsAndFiles.loop rest (options ++ [arg]) files
      else parseOptionsAndFiles.loop rest options (files ++ [arg]) := by
  cases hd : arg.data with
  | nil =>
    have harg : arg = "" := by
      by_contra hne
      exact (ne_empty_iff_data arg).1 hne hd
    simp [parseOptionsAndFiles.loop, hd, harg]
  | cons c cs =>
    have harg : arg ≠ "" := (ne_empty_iff_data arg).2 (by simp [hd])
    by_cases hc : c = '-'
    · simp [parseOptionsAndFiles.loop, hd, harg, startsWithDash, hc]
    · simp [parseOptionsAndFiles.loop, hd, harg, startsWithDash, hc]

theorem parse_loop_short (args : List String) :
    ∀ options files : List String,
      parseOptionsAndFiles.loop (args.map shortSpelling) (options.map shortSpelling) files =
        (parseOptionsAndFiles.loop args options files).map
          fun r => (r.1.map shortSpelling, r.2) := by
  induction args with
  | nil => intro options files; simp [parseOptionsAndFiles.loop]
  | cons arg rest ih =>
    intro options files
    obtain ⟨_, _, _, _, hdash, hempty, hfile, _⟩ := shortSpelling_props arg
    rw [List.map_cons, parse_loop_cons, parse_loop_cons]
    by_cases h0 : arg = ""
    · rw [if_pos (hempty.2 h0), if_pos h0]
      rfl
    · have h0s : shortSpelling arg ≠ "" := fun h => h0 (hempty.1 h)
      by_cases hd : startsWithDash arg = true
      · have := ih (options ++ [arg]) files
        simp only [List.map_append, List.map_cons, List.map_nil] at this
        simp [h0, h0s, hdash, hd, this]
      · have hd0 : startsWithDash arg = false := by simpa using hd
        have := ih options (files ++ [arg])
        simp [h0, h0s, hdash, hd0, hfile hd0, this]

theorem checkOptions_cons (o : String) (rest : List String) :
    main.checkOptions (o :: rest) =
      if isValidOption o = false then some (o ++ " is not a valid option.")
      else if isHelp o = true then some printHelpMessage
      else main.checkOptions rest := by
  simp [main.checkOptions, isHelp]

theorem checkOptions_short (options : List String) :
    main.checkOptions (options.map shortSpelling) = main.checkOptions options := by
  induction options with
  | nil => rfl
  | cons o rest ih =>
    obtain ⟨_, _, hhelp, hvalid, _, _, _, hinv⟩ := shortSpelling_props o
    rw [List.map_cons, checkOptions_cons, checkOptions_cons, hhelp, hvalid, ih]
    by_cases hv : isValidOption o = false
    · simp [hv, hinv hv]
    · simp [hv]

theorem written_short (options lines : List String) :
    printFileContents.written (options.map shortSpelling) lines =
      printFileContents.written options lines := by
  have h1 : (fun o => isNumber (shortSpelling o)) = isNumber :=
    funext fun o => (shortSpelling_props o).1
  have h2 : (fun o => isNumberNonBlank (shortSpelling o)) = isNumberNonBlank :=
    funext fun o => (shortSpelling_props o).2.1
  rw [written_eq, written_eq, List.any_map, List.any_map]
  simp only [Function.comp_def, h1, h2]

theorem printFileContents_short (fs : FileSystem) (path : String) (options : List String)
    (p : Process) :
    printFileContents fs path (options.map shortSpelling) p =
      printFileContents fs path options p := by
  simp only [printFileContents, printFileContents.aborted, written_short]

theorem render_short (fs : FileSystem) (options files : List String) :
    ∀ p : Process,
      main.render fs (options.map shortSpelling) files p = main.render fs options files p := by
  induction files with
  | nil => intro p; rfl
  | cons f rest ih => intro p; simp only [main.render, printFileContents_short, ih]

theorem main_short (fs : FileSystem) (args : List String) :
    main fs (args.map shortSpelling) = main fs args := by
  have hloop := parse_loop_short args [] []
  simp only [List.map_nil] at hloop
  unfold main parseOptionsAndFiles
  rw [hloop]
  cases parseOptionsAndFiles.loop args [] [] with
  | none => rfl
  | some r =>
    obtain ⟨options, files⟩ := r
    simp only [Option.map_some', checkOptions_short, render_short]

/-! ## Further lemmas on the stages of `main` -/

theorem parse_loop_some (args : List String) :
    ∀ (options files : List String) (r : List String × List String),
      parseOptionsAndFiles.loop args options files = some r → ∀ a ∈ args, a ≠ "" := by
  induction args with
  | nil => intro _ _ _ _ a ha; simp at ha
  | cons arg rest ih =>
    intro options files r h a ha
    rw [parse_loop_cons] at h
    by_cases h0 : arg = ""
    · simp [h0] at h
    · rcases List.mem_cons.1 ha with rfl | ha
      · exact h0
      · rw [if_neg h0] at h
        by_cases hd : startsWithDash arg = true
        · rw [if_pos hd] at h
          exact ih _ _ r h a ha
        · rw [if_neg hd] at h
          exact ih _ _ r h a ha

theorem parse_some (args options files : List String)
    (h : parseOptionsAndFiles args = some (options, files)) :
    (∀ a ∈ args, a ≠ "") ∧ options = args.filter startsWithDash ∧
      files = args.filter (fun a => !startsWithDash a) := by
  have hne : ∀ a ∈ args, a ≠ "" := parse_loop_some args [] [] _ h
  rw [parse_eq args hne] at h
  have hpair := Option.some.inj h
  exact ⟨hne, (congrArg Prod.fst hpair).symm, (congrArg Prod.snd hpair).symm⟩

theorem checkFiles_result (fs : FileSystem) (files : List String) :
    (main.checkFiles fs files = none ∧ ∀ f ∈ files, fileExists fs f = true) ∨
      ∃ p ∈ files, fileExists fs p = false ∧
        main.checkFiles fs files = some ("File '" ++ p ++ "' does not exist") := by
  by_cases h : ∀ f ∈ files, fileExists fs f = true
  · exact Or.inl ⟨checkFiles_none fs files h, h⟩
  · have hex : ∃ f ∈ files, fileExists fs f = false := by
      by_contra hno
      apply h
      intro f hf
      cases hfe : fileExists fs f with
      | true => rfl
      | false => exact absurd ⟨f, hf, hfe⟩ hno
    obtain ⟨pre, p, post, hsplit, _, hp, hcheck⟩ := checkFiles_missing fs files hex
    exact Or.inr ⟨p, by simp [hsplit], hp, hcheck⟩

theorem checkOptions_result (options : List String) :
    (main.checkOptions options = none ∧
        ∀ o ∈ options, isValidOption o = true ∧ isHelp o = false) ∨
      (∃ o ∈ options, isValidOption o = false ∧
        main.checkOptions options = some (o ++ " is not a valid option.")) ∨
      ((∃ o ∈ options, isHelp o = true) ∧ main.checkOptions options = some printHelpMessage) := by
  induction options with
  | nil => exact Or.inl ⟨rfl, by simp⟩
  | cons o rest ih =>
    rw [checkOptions_cons]
    by_cases hv : isValidOption o = false
    · exact Or.inr (Or.inl ⟨o, List.mem_cons_self _ _, hv, by simp [hv]⟩)
    · have hv1 : isValidOption o = true := by simpa using hv
      by_cases hh : isHelp o = true
      · exact Or.inr (Or.inr ⟨⟨o, List.mem_cons_self _ _, hh⟩, by simp [hv1, hh]⟩)
      · have hh0 : isHelp o = false := by simpa using hh
        rcases ih with ⟨hnone, hall⟩ | ⟨x, hx, hxv, hsome⟩ | ⟨⟨x, hx, hxh⟩, hsome⟩
        · refine Or.inl ⟨by simp [hv1, hh0, hnone], ?_⟩
          intro y hy
          rcases List.mem_cons.1 hy with rfl | hy
          · exact ⟨hv1, hh0⟩
          · exact hall y hy
        · exact Or.inr (Or.inl ⟨x, List.mem_cons_of_mem _ hx, hxv, by simp [hv1, hh0, hsome]⟩)
        · exact Or.inr (Or.inr ⟨⟨x, List.mem_cons_of_mem _ hx, hxh⟩, by simp [hv1, hh0, hsome]⟩)

theorem write_total (state : Nat × Nat) (len : Nat) (h : state.2 ≤ bufio.defaultBufSize) :
    (bufio.Writer.Write state len).1 + (bufio.Writer.Write state len).2 =
        state.1 + state.2 + len ∧
      (bufio.Writer.Write state len).2 ≤ bufio.defaultBufSize := by
  obtain ⟨through, n⟩ := state
  simp only at h
  unfold bufio.Writer.Write
  simp only
  split_ifs with h1 h2 h3
  · exact ⟨by omega, by omega⟩
  · exact ⟨by omega, by simp⟩
  · exact ⟨by omega, h3⟩
  · exact ⟨by omega, by simp⟩

theorem afterLines_total (out : List String) :
    (bufio.Writer.afterLines out).1 + (bufio.Writer.afterLines out).2 =
        (out.map fun line => line.utf8ByteSize + 1).sum ∧
      (bufio.Writer.afterLines out).2 ≤ bufio.defaultBufSize := by
  have key : ∀ (l : List String) (state : Nat × Nat), state.2 ≤ bufio.defaultBufSize →
      (l.foldl (fun st line => bufio.Writer.Write st (line.utf8ByteSize + 1)) state).1 +
          (l.foldl (fun st line => bufio.Writer.Write st (line.utf8ByteSize + 1)) state).2 =
        state.1 + state.2 + (l.map fun line => line.utf8ByteSize + 1).sum ∧
      (l.foldl (fun st line => bufio.Writer.Write st (line.utf8ByteSize + 1)) state).2 ≤
        bufio.defaultBufSize := by
    intro l
    induction l with
    | nil => intro state h; simpa using h
    | cons line rest ih =>
      intro state h
      obtain ⟨hsum, hle⟩ := write_total state (line.utf8ByteSize + 1) h
      obtain ⟨hsum2, hle2⟩ := ih _ hle
      refine ⟨?_, hle2⟩
      simp only [List.foldl_cons, List.map_cons, List.sum_cons]
      omega
  have h := key out (0, 0) (by simp)
  simpa [bufio.Writer.afterLines] using h

theorem afterLines_writes_through :
    bufio.Writer.afterLines (List.replicate 70 (String.mk (List.replicate 63 'a'))) =
      (4096, 384) := by
  decide

/-- Claim C11, evaluated on the code: on the argument list holding one empty
string the classifier reads `arg[0]` of an empty string and panics, so nothing is
classified and the run ends in the panic, with exit status 2. -/
theorem parseOptionsAndFiles_empty_argument :
    parseOptionsAndFiles [""] = none ∧
      parseOptionsAndFiles ["-n", "", "a.txt"] = none ∧
      main exampleFS [""] = (Process.init, .panicked) ∧
      (main exampleFS [""]).2.exitStatus = 2 := by
  decide

/-- Claim C12: for the file `a.txt` with lines `foo`, the empty line and `bar`, the
option list `-b` writes `0 foo`, the empty line, `1 bar`; the option list `-n` writes
`0 foo`, `1 ` and `2 bar`; the empty option list writes the three lines unchanged;
and these are, newline-terminated, the outputs of the three runs. -/
theorem concrete_scenario :
    exampleFS "a.txt" = .readable ["foo", "", "bar"] none ∧
      printFileContents.written ["-b"] ["foo", "", "bar"] = ["0 foo", "", "1 bar"] ∧
      printFileContents.written ["-n"] ["foo", "", "bar"] = ["0 foo", "1 ", "2 bar"] ∧
      printFileContents.written [] ["foo", "", "bar"] = ["foo", "", "bar"] ∧
      (printFileContents exampleFS "a.txt" ["-b"] Process.init).1.stdout = "0 foo\n\n1 bar\n" ∧
      (printFileContents exampleFS "a.txt" ["-n"] Process.init).1.stdout =
        "0 foo\n1 \n2 bar\n" ∧
      (printFileContents exampleFS "a.txt" [] Process.init).1.stdout = "foo\n\nbar\n" ∧
      (main exampleFS ["-b", "a.txt"]).1.stdout = "0 foo\n\n1 bar\n" ∧
      (main exampleFS ["-n", "a.txt"]).1.stdout = "0 foo\n1 \n2 bar\n" ∧
      (main exampleFS ["a.txt"]).1.stdout = "foo\n\nbar\n" := by
  decide

/-- Claim C13: two argument lists that differ only in the spelling of options, `-n`
for `--number`, `-b` for `--number-nonblank`, `-h` for `--help` or the reverse, at any
number of places, give the same run: same output, same files opened and closed,
same end. -/
theorem spelling_interchangeable (fs : FileSystem) (args other : List String)
    (h : List.Forall₂ respelled args other) : main fs args = main fs other := by
  rw [← main_short fs args, ← main_short fs other, respelled_map args other h]

theorem spelling_interchangeable_witness :
    main exampleFS ["-n", "a.txt", "--number-nonblank", "b.txt"] =
        main exampleFS ["--number", "a.txt", "-b", "b.txt"] ∧
      (main exampleFS ["--number", "a.txt", "-b", "b.txt"]).1.stdout =
        "0 foo\n\n1 bar\n0 x\n1 y\n" :=
  ⟨spelling_interchangeable exampleFS ["-n", "a.txt", "--number-nonblank", "b.txt"]
      ["--number", "a.txt", "-b", "b.txt"]
      (.cons (by unfold respelled; decide) (.cons (by unfold respelled; decide)
        (.cons (by unfold respelled; decide) (.cons (by unfold respelled; decide) .nil)))),
   by decide⟩

/-- Claim C14: two option lists made only of the numbering tokens `-n`, `--number`,
`-b`, `--number-nonblank` that hold the same set of tokens make `printFileContents`
do the same on every file: neither the order of the options nor a repetition
matters. -/
theorem option_order_irrelevant (fs : FileSystem) (path : String)
    (options other : List String) (p : Process)
    (_hoptions : ∀ o ∈ options,
      o = "-n" ∨ o = "--number" ∨ o = "-b" ∨ o = "--number-nonblank")
    (_hother : ∀ o ∈ other,
      o = "-n" ∨ o = "--number" ∨ o = "-b" ∨ o = "--number-nonblank")
    (hset : ∀ o, o ∈ options ↔ o ∈ other) :
    printFileContents fs path options p = printFileContents fs path other p := by
  have h1 : options.any isNumber = other.any isNumber := by
    rw [Bool.eq_iff_iff, any_isNumber, any_isNumber, hset, hset]
  have h2 : options.any isNumberNonBlank = other.any isNumberNonBlank := by
    rw [Bool.eq_iff_iff, any_isNumberNonBlank, any_isNumberNonBlank, hset, hset]
  have hw : ∀ lines, printFileContents.written options lines =
      printFileContents.written other lines := by
    intro lines
    rw [written_eq, written_eq, h1, h2]
  simp only [printFileContents, printFileContents.aborted, hw]

theorem option_order_irrelevant_witness :
    printFileContents exampleFS "a.txt" ["-n", "-b", "-n"] Process.init =
      printFileContents exampleFS "a.txt" ["-b", "-n"] Process.init :=
  option_order_irrelevant exampleFS "a.txt" ["-n", "-b", "-n"] ["-b", "-n"] Process.init
    (by decide) (by decide) (by
      intro o
      simp only [List.mem_cons, List.mem_singleton, List.not_mem_nil, or_false]
      constructor
      · rintro (h | h | h)
        · exact Or.inr h
        · exact Or.inl h
        · exact Or.inr h
      · rintro (h | h)
        · exact Or.inr (Or.inl h)
        · exact Or.inl h)

/-- Claim C16: on arguments that are all non-empty, `main` reaches its rendering
loop exactly when every file path exists, every option is recognized and no option
is a help option, and it then does what the rendering loop does; in every other case
the run opens no file, returns, and its output is a diagnostic naming a file or an
option, or the help text. -/
theorem rendering_stage (fs : FileSystem) (args : List String)
    (hne : ∀ a ∈ args, a ≠ "") :
    (main.reachesRendering fs args = true ↔
      (∀ f ∈ args.filter (fun a => !startsWithDash a), fileExists fs f = true) ∧
      (∀ o ∈ args.filter startsWithDash, isValidOption o = true) ∧
      (∀ o ∈ args.filter startsWithDash, isHelp o = false)) ∧
    (main.reachesRendering fs args = true →
      main fs args =
        main.render fs (args.filter startsWithDash)
          (args.filter fun a => !startsWithDash a) Process.init) ∧
    (main.reachesRendering fs args = false →
      (main fs args).1.opened = [] ∧ (main fs args).1.closed = [] ∧
      (main fs args).2 = .returned ∧
      ((∃ p ∈ args.filter (fun a => !startsWithDash a),
          (main fs args).1.stdout = "File '" ++ p ++ "' does not exist") ∨
        (∃ o ∈ args.filter startsWithDash,
          (main fs args).1.stdout = o ++ " is not a valid option.") ∨
        (main fs args).1.stdout = printHelpMessage)) := by
  have hparse := parse_eq args hne
  rcases checkFiles_result fs (args.filter fun a => !startsWithDash a) with
    ⟨hfnone, hfall⟩ | ⟨p, hp, hpmiss, hfsome⟩
  · rcases checkOptions_result (args.filter startsWithDash) with
      ⟨honone, hoall⟩ | ⟨o, ho, hov, hosome⟩ | ⟨⟨o, ho, hoh⟩, hosome⟩
    · have hreach : main.reachesRendering fs args = true := by
        simp [main.reachesRendering, hparse, hfnone, honone]
      refine ⟨?_, ?_, ?_⟩
      · simp only [hreach, true_iff]
        exact ⟨hfall, fun o ho => (hoall o ho).1, fun o ho => (hoall o ho).2⟩
      · intro _
        simp [main, hparse, hfnone, honone]
      · intro h
        rw [hreach] at h
        exact absurd h (by decide)
    · have hreach : main.reachesRendering fs args = false := by
        simp [main.reachesRendering, hparse, hfnone, hosome]
      have hmain : main fs args =
          ({ Process.init with stdout := o ++ " is not a valid option." }, .returned) := by
        simp [main, hparse, hfnone, hosome]
      refine ⟨?_, ?_, ?_⟩
      · simp only [hreach, Bool.false_eq_true, false_iff]
        rintro ⟨_, hvalid, _⟩
        rw [hvalid o ho] at hov
        exact absurd hov (by decide)
      · intro h
        rw [hreach] at h
        exact absurd h (by decide)
      · intro _
        rw [hmain]
        exact ⟨rfl, rfl, rfl, Or.inr (Or.inl ⟨o, ho, rfl⟩)⟩
    · have hreach : main.reachesRendering fs args = false := by
        simp [main.reachesRendering, hparse, hfnone, hosome]
      have hmain : main fs args =
          ({ Process.init with stdout := printHelpMessage }, .returned) := by
        simp [main, hparse, hfnone, hosome]
      refine ⟨?_, ?_, ?_⟩
      · simp only [hreach, Bool.false_eq_true, false_iff]
        rintro ⟨_, _, hhelp⟩
        rw [hhelp o ho] at hoh
        exact absurd hoh (by decide)
      · intro h
        rw [hreach] at h
        exact absurd h (by decide)
      · intro _
        rw [hmain]
        exact ⟨rfl, rfl, rfl, Or.inr (Or.inr rfl)⟩
  · have hreach : main.reachesRendering fs args = false := by
      simp [main.reachesRendering, hparse, hfsome]
    have hmain : main fs args =
        ({ Process.init with stdout := "File '" ++ p ++ "' does not exist" }, .returned) := by
      simp [main, hparse, hfsome]
    refine ⟨?_, ?_, ?_⟩
    · simp only [hreach, Bool.false_eq_true, false_iff]
      rintro ⟨hexist, _, _⟩
      rw [hexist p hp] at hpmiss
      exact absurd hpmiss (by decide)
    · intro h
      rw [hreach] at h
      exact absurd h (by decide)
    · intro _
      rw [hmain]
      exact ⟨rfl, rfl, rfl, Or.inl ⟨p, hp, rfl⟩⟩

theorem rendering_stage_witness :
    main.reachesRendering exampleFS ["-n", "a.txt", "b.txt"] = true ∧
      main exampleFS ["-n", "a.txt", "b.txt"] =
        main.render exampleFS (["-n", "a.txt", "b.txt"].filter startsWithDash)
          (["-n", "a.txt", "b.txt"].filter fun a => !startsWithDash a) Process.init ∧
      main.reachesRendering exampleFS ["-n", "a.txt", "-h"] = false :=
  ⟨by decide,
   (rendering_stage exampleFS ["-n", "a.txt", "b.txt"] (by decide)).2.1 (by decide),
   by decide⟩

/-- Claim C17, evaluated on the code: when reading an opened file fails, the run ends
in `log.Fatal` with the file opened and never closed, since the deferred
`file.Close()` does not run on that way out; the files rendered before it were
closed. -/
theorem close_skipped_on_read_error :
    faultyFS "dir" = .readable [] (some "read dir: is a directory") ∧
      main faultyFS ["dir"] =
        ({ Process.init with opened := ["dir"] }, .fatal "read dir: is a directory") ∧
      (main faultyFS ["dir"]).1.closed = [] ∧
      (main faultyFS ["a.txt", "long.txt", "a.txt"]).1.opened = ["a.txt", "long.txt"] ∧
      (main faultyFS ["a.txt", "long.txt", "a.txt"]).1.closed = ["a.txt"] ∧
      (main faultyFS ["a.txt", "long.txt", "a.txt"]).2 =
        .fatal "bufio.Scanner: token too long" := by
  decide

/-- Claim C18: whenever the classifier returns, every argument that begins with a
dash, the bare `-` and a name such as `-x.txt` among them, is among the options and
not among the files; `-` is not in the vocabulary, so a run in which every file
exists and no help option and no unrecognized option comes before `-` prints
`- is not a valid option.`, opens nothing and returns. -/
theorem bare_dash_is_option (fs : FileSystem) (args options files pre post : List String)
    (hparse : parseOptionsAndFiles args = some (options, files)) :
    (∀ a ∈ args, startsWithDash a = true → a ∈ options ∧ a ∉ files) ∧
      startsWithDash "-" = true ∧ startsWithDash "-x.txt" = true ∧
      isValidOption "-" = false ∧
      ((∀ f ∈ files, fileExists fs f = true) → options = pre ++ "-" :: post →
        (∀ x ∈ pre, isValidOption x = true ∧ isHelp x = false) →
        main fs args =
          ({ Process.init with stdout := "- is not a valid option." }, .returned)) := by
  obtain ⟨_, hoptions, hfiles⟩ := parse_some args options files hparse
  refine ⟨?_, by decide, by decide, by decide, ?_⟩
  · intro a ha hd
    subst hoptions
    subst hfiles
    exact ⟨List.mem_filter.2 ⟨ha, hd⟩, fun hmem => by simp [hd] at hmem⟩
  · intro hexist hsplit hpre
    simp [main, hparse, checkFiles_none fs _ hexist, hsplit,
      checkOptions_invalid pre post "-" hpre (by decide)]

theorem bare_dash_is_option_witness :
    parseOptionsAndFiles ["a.txt", "-n", "-", "-x.txt", "-h"] =
        some (["-n", "-", "-x.txt", "-h"], ["a.txt"]) ∧
      main exampleFS ["a.txt", "-n", "-", "-x.txt", "-h"] =
        ({ Process.init with stdout := "- is not a valid option." }, .returned) :=
  ⟨by decide,
   (bare_dash_is_option exampleFS ["a.txt", "-n", "-", "-x.txt", "-h"]
      ["-n", "-", "-x.txt", "-h"] ["a.txt"] ["-n"] ["-x.txt", "-h"] (by decide)).2.2.2.2
      (by decide) (by decide) (by decide)⟩

end Cat
